import Mathlib

set_option maxRecDepth 20000

/-!
Verification of the two data-migration scripts of the felony-fitness-app
repository: the SQL serving-format fixer (scripts/fix-food-servings-sql.py)
and the exercise CSV-to-SQL generator (OldFiles/generate_exercise_sql.py).
Strings are modelled as lists of characters; the fixed 13-field regular
expression of the fixer is embedded as a deterministic parser, which is
faithful because every quantifier in that pattern is forced (each repeated
class is disjoint from the character that must follow it, so greedy maximal
munch is the unique way to match).
-/

namespace FFA

/-- The single-quote character, written by code point to keep source text plain. -/
def sqc : Char := Char.ofNat 39

/-- ASCII decimal digit test, modelling the regex class backslash-d on ASCII input. -/
def isDig (c : Char) : Bool := 48 ≤ c.toNat && c.toNat ≤ 57

/-- ASCII whitespace as Python str.strip and the regex class backslash-s see it
(space, tab, newline, carriage return, vertical tab, form feed). -/
def isPySpace (c : Char) : Bool :=
  c == ' ' || c == '\t' || c == '\n' || c == '\r' || c == '\x0b' || c == '\x0c'

/-- Python str.lstrip with no argument. -/
def pyLstrip (l : List Char) : List Char := l.dropWhile isPySpace

/-- Python str.rstrip with no argument. -/
def pyRstrip (l : List Char) : List Char := (l.reverse.dropWhile isPySpace).reverse

/-- Python str.strip with no argument. -/
def pyStrip (l : List Char) : List Char := pyRstrip (pyLstrip l)

/-- Test whether the second list starts with the first (Python startswith). -/
def beginsWith : List Char → List Char → Bool
  | [], _ => true
  | _ :: _, [] => false
  | p :: ps, c :: cs => p == c && beginsWith ps cs

/-- Python endswith for a single character. -/
def lastIs (l : List Char) (c : Char) : Bool :=
  match l.getLast? with
  | some d => d == c
  | none => false

/-- Tokens of the fixed 13-field pattern: a quoted field (the flag tells
whether the body may be empty, distinguishing the starred class used for the
brand field from the plus classes), or a numeric field digits-dot-digits. -/
inductive Tok where
  | quoted : Bool → Tok
  | num : Tok

/-- Parse one quoted field: an opening quote, a maximal run of non-quote
characters (the capture), and a closing quote.  Mirrors the regex pieces
quote, bracket-class-plus (or star when `allowEmpty`), quote. -/
def parseQuoted (allowEmpty : Bool) (cs : List Char) : Option (List Char × List Char) :=
  match cs with
  | c :: rest =>
    if c = sqc then
      match rest.dropWhile (fun d => d != sqc) with
      | _ :: r2 =>
        if allowEmpty || !(rest.takeWhile (fun d => d != sqc)).isEmpty then
          some (rest.takeWhile (fun d => d != sqc), r2)
        else none
      | [] => none
    else none
  | [] => none

/-- Parse one numeric field: one or more digits, optionally followed by a dot
and one or more digits; the capture is the matched text.  Mirrors the regex
piece digits-plus with an optional fractional group. -/
def parseNum (cs : List Char) : Option (List Char × List Char) :=
  if (cs.takeWhile isDig).isEmpty then none
  else
    match cs.dropWhile isDig with
    | c :: r2 =>
      if c = '.' then
        if (r2.takeWhile isDig).isEmpty then some (cs.takeWhile isDig, cs.dropWhile isDig)
        else some (cs.takeWhile isDig ++ '.' :: r2.takeWhile isDig, r2.dropWhile isDig)
      else some (cs.takeWhile isDig, cs.dropWhile isDig)
    | [] => some (cs.takeWhile isDig, cs.dropWhile isDig)

/-- Parse the separator between two fields: a comma then any whitespace. -/
def parseCommaWs (cs : List Char) : Option (List Char) :=
  match cs with
  | c :: rest => if c = ',' then some (rest.dropWhile isPySpace) else none
  | [] => none

/-- Run one token of the pattern. -/
def runTok : Tok → List Char → Option (List Char × List Char)
  | Tok.quoted b, cs => parseQuoted b cs
  | Tok.num, cs => parseNum cs

/-- Run a token list, with a comma-whitespace separator between consecutive
tokens, returning the list of captures and the remaining input. -/
def runToks : List Tok → List Char → Option (List (List Char) × List Char)
  | [], cs => some ([], cs)
  | t :: ts, cs =>
    match runTok t cs with
    | none => none
    | some (g, r) =>
      match ts with
      | [] => some ([g], r)
      | _ :: _ =>
        match parseCommaWs r with
        | none => none
        | some r2 =>
          match runToks ts r2 with
          | none => none
          | some (gs, r3) => some (g :: gs, r3)

/-- The 13 fields of the pattern of fix-food-servings-sql.py: name, brand
(possibly empty), serving size, serving unit, six numeric nutrition fields,
category, source, status. -/
def pat : List Tok :=
  [Tok.quoted false, Tok.quoted true, Tok.num, Tok.quoted false, Tok.num, Tok.num,
   Tok.num, Tok.num, Tok.num, Tok.num, Tok.quoted false, Tok.quoted false, Tok.quoted false]

/-- Attempt to match the whole pattern at the head of the input: an opening
parenthesis, the 13 fields, and a closing parenthesis. -/
def matchAt (cs : List Char) : Option (List (List Char)) :=
  match cs with
  | c :: r0 =>
    if c = '(' then
      match runToks pat r0 with
      | some (gs, r) =>
        match r with
        | d :: _ => if d = ')' then some gs else none
        | [] => none
      | none => none
    else none
  | [] => none

/-- re.search: try the pattern at every position, leftmost first. -/
def searchFrom : List Char → Option (List (List Char))
  | [] => none
  | c :: cs =>
    match matchAt (c :: cs) with
    | some gs => some gs
    | none => searchFrom cs

/-- Numeric value of a digit list (most significant first). -/
def digitsVal (l : List Char) : Nat := l.foldl (fun a c => 10 * a + (c.toNat - 48)) 0

/-- The digits of the integer part of a matched numeric text. -/
def intDigits (s : List Char) : List Char := s.takeWhile isDig

/-- The digits of the fractional part of a matched numeric text (empty when
there is no dot). -/
def fracDigits (s : List Char) : List Char := ((s.dropWhile isDig).drop 1).takeWhile isDig

/-- Round a / b to the nearest integer, ties to even (b positive). -/
def roundHalfEven (a b : Nat) : Nat :=
  if 2 * (a % b) < b then a / b
  else if b < 2 * (a % b) then a / b + 1
  else a / b + a / b % 2

/-- Floor of the base-two logarithm, by fuel (the fuel n suffices, since the
argument halves at every step). -/
def natLog2Aux : Nat → Nat → Nat
  | 0, _ => 0
  | fuel + 1, n => if 2 ≤ n then natLog2Aux fuel (n / 2) + 1 else 0

def natLog2 (n : Nat) : Nat := natLog2Aux n n

/-- The least k with tgt ≤ n * 2 ^ k, by fuel (used for values below one;
the fuel 4 * f + 4 suffices against tgt = 10 ^ f since 16 ^ f ≥ 10 ^ f). -/
def belowOneExp : Nat → Nat → Nat → Nat
  | 0, _, _ => 0
  | fuel + 1, n, tgt => if tgt ≤ n then 0 else belowOneExp fuel (2 * n) tgt + 1

/-- The binary exponent of the positive rational n / 10 ^ f: the unique e
with 2 ^ e ≤ n / 10 ^ f < 2 ^ (e + 1). -/
def floorLog2 (n f : Nat) : Int :=
  if 10 ^ f ≤ n then Int.ofNat (natLog2 (n / 10 ^ f))
  else -Int.ofNat (belowOneExp (4 * f + 4) n (10 ^ f))

/-- The 53-bit significand of the IEEE binary64 value nearest to n / 10 ^ f
(round to nearest, ties to even), scaled into the range from 2 ^ 52 to
2 ^ 53: the rounding of (n / 10 ^ f) * 2 ^ (52 - e) at the binary exponent e
of the value.  A result of exactly 2 ^ 53 stands for the next binade. -/
def b64mantissa (n f : Nat) : Nat :=
  if 0 ≤ 52 - floorLog2 n f then
    roundHalfEven (n * 2 ^ (52 - floorLog2 n f).toNat) (10 ^ f)
  else roundHalfEven n (10 ^ f * 2 ^ (floorLog2 n f - 52).toNat)

/-- Truncation toward zero of the binary64 value nearest to n / 10 ^ f: the
significand shifted by the exponent.  For values below 2 ^ -1022 the true
double is subnormal, but both the subnormal and this unbounded-exponent
rounding lie strictly below one, so the truncation is zero either way and the
model agrees with the program there too. -/
def b64floor (n f : Nat) : Nat :=
  if n = 0 then 0
  else if 0 ≤ floorLog2 n f - 52 then
    b64mantissa n f * 2 ^ (floorLog2 n f - 52).toNat
  else b64mantissa n f / 2 ^ (52 - floorLog2 n f).toNat

/-- Whether the binary64 rounding of n / 10 ^ f reaches 2 ^ 1024, the point
where float() yields infinity and int() then raises OverflowError. -/
def b64overflow (n f : Nat) : Bool :=
  if n = 0 then false
  else if 0 ≤ floorLog2 n f - 52 then
    decide (2 ^ 1024 ≤ b64mantissa n f * 2 ^ (floorLog2 n f - 52).toNat)
  else false

/-- The numeric value of all digits of a matched numeric text, fraction
concatenated after the integer part: the text denotes numTextVal s divided
by 10 to the number of fraction digits. -/
def numTextVal (s : List Char) : Nat := digitsVal (intDigits s ++ fracDigits s)

/-- Model of the Python expression int(float(s)) for a string s matching the
numeric field shape digits-optional-dot-digits: the decimal value is rounded
to the nearest IEEE binary64 double (ties to even) and truncated toward
zero, exactly as CPython does.  The OverflowError that int(float(s)) raises
when the rounding reaches infinity is flagged separately by
int_float_overflows; on such inputs this total function returns the
unrounded shift, a value the program never prints. -/
def int_float (s : List Char) : Nat := b64floor (numTextVal s) (fracDigits s).length

/-- Whether int(float(s)) raises OverflowError for the matched numeric
text s. -/
def int_float_overflows (s : List Char) : Bool :=
  b64overflow (numTextVal s) (fracDigits s).length

/-- One decimal digit as a character. -/
def digitChar : Nat → Char
  | 0 => '0' | 1 => '1' | 2 => '2' | 3 => '3' | 4 => '4'
  | 5 => '5' | 6 => '6' | 7 => '7' | 8 => '8' | _ => '9'

/-- Decimal digits of a natural number, with explicit fuel (the fuel n + 1
always suffices). -/
def natDigitsAux : Nat → Nat → List Char
  | 0, _ => []
  | f + 1, n => if n < 10 then [digitChar n] else natDigitsAux f (n / 10) ++ [digitChar (n % 10)]

/-- Model of Python str on a nonnegative int: standard decimal rendering. -/
def natStr (n : Nat) : List Char := natDigitsAux (n + 1) n

/-- The letter g used for the grams unit. -/
def gch : Char := 'g'

/-- First assignment of serving_desc in the fixer: format size then unit with
no separator (both branches of the conditional expression produce this). -/
def serving_desc_init (size unit : List Char) : List Char :=
  if unit != [gch] then size ++ unit else size ++ [gch]

/-- Final serving_desc: the grams special case overrides the initial value
when the unit is exactly g and the truncated numeric size exceeds one. -/
def serving_desc (size unit : List Char) : List Char :=
  if unit = [gch] && 1 < int_float size then natStr (int_float size) ++ [gch]
  else serving_desc_init size unit

/-- The comma-space separator of the rebuilt tuple. -/
def commaSp : List Char := (", ").data

/-- A field wrapped in single quotes. -/
def quoteField (s : List Char) : List Char := sqc :: (s ++ [sqc])

/-- The rebuilt 11-field tuple literal of the fixer (f-string on line 42 of
the script), with two leading spaces and the given serving description as the
third field. -/
def new_tuple (gs : List (List Char)) (desc : List Char) : List Char :=
  ("  (").data ++ quoteField (gs.getD 0 []) ++ commaSp ++ quoteField (gs.getD 1 []) ++
    commaSp ++ quoteField desc ++ commaSp ++ gs.getD 4 [] ++ commaSp ++ gs.getD 5 [] ++
    commaSp ++ gs.getD 6 [] ++ commaSp ++ gs.getD 7 [] ++ commaSp ++ gs.getD 8 [] ++
    commaSp ++ gs.getD 9 [] ++ commaSp ++ quoteField (gs.getD 10 []) ++ commaSp ++
    quoteField (gs.getD 11 []) ++ commaSp ++ quoteField (gs.getD 12 []) ++ (")").data

/-- The two-character candidate test of the fixer: open parenthesis, quote. -/
def startTok : List Char := ['(', sqc]

/-- The fixer transformation fix_values_line on character lists, following
the Python statement for statement: the candidate test on the stripped line,
the pattern search, the serving-description merge, the rebuild, the
preservation of a trailing comma or semicolon, and the final newline. -/
def fixLineL (line : List Char) : List Char :=
  if !(beginsWith startTok (pyStrip line)) then line
  else
    match searchFrom line with
    | none => line
    | some gs =>
      let desc := serving_desc (gs.getD 2 []) (gs.getD 3 [])
      let base := new_tuple gs desc
      let withEnd :=
        if lastIs (pyRstrip line) ',' then base ++ [',']
        else if lastIs (pyRstrip line) ';' then base ++ [';']
        else base
      withEnd ++ ['\n']

/-- fix_values_line on Lean strings. -/
def fix_values_line (s : String) : String := String.mk (fixLineL s.data)

/-- Number of quoted tokens in a token list. -/
def quotedCount : List Tok → Nat
  | [] => 0
  | Tok.quoted _ :: ts => quotedCount ts + 1
  | Tok.num :: ts => quotedCount ts

lemma isDig_ne_sq {c : Char} (h : isDig c = true) : c ≠ sqc := by
  intro e; subst e; exact absurd h (by decide)

lemma isPySpace_ne_sq {c : Char} (h : isPySpace c = true) : c ≠ sqc := by
  intro e; subst e; exact absurd h (by decide)

lemma count_sq_eq_zero {g : List Char} (h : ∀ c ∈ g, c ≠ sqc) : List.count sqc g = 0 :=
  List.count_eq_zero.2 fun hm => (h _ hm) rfl

/-- Characterization of a successful quoted-field parse: the input splits as
an opening quote, the quote-free capture, a closing quote and the rest. -/
lemma parseQuoted_some {b : Bool} {cs g r : List Char}
    (h : parseQuoted b cs = some (g, r)) :
    cs = sqc :: (g ++ sqc :: r) ∧ (∀ c ∈ g, c ≠ sqc) ∧ (b = false → g ≠ []) := by
  unfold parseQuoted at h
  split at h
  next c rest =>
    split at h
    next hc =>
      subst hc
      split at h
      next x r2 hd =>
        have hwne : rest.dropWhile (fun d => d != sqc) ≠ [] := by rw [hd]; simp
        have hx : x = sqc := by
          have hh := List.head_dropWhile_not (fun d => d != sqc) rest hwne
          have hhd : (rest.dropWhile (fun d => d != sqc)).head hwne = x := by
            simp [hd]
          rw [hhd] at hh
          simpa using hh
        split at h
        next hb =>
          simp only [Option.some.injEq, Prod.mk.injEq] at h
          obtain ⟨hg, hr⟩ := h
          subst hg; subst hr
          refine ⟨?_, ?_, ?_⟩
          · have hsplit := List.takeWhile_append_dropWhile (fun d => d != sqc) rest
            rw [hd, hx] at hsplit
            exact congrArg (fun l => sqc :: l) hsplit.symm
          · intro c hm
            have := List.mem_takeWhile_imp hm
            simpa using this
          · intro hbf
            rw [hbf] at hb
            simp only [Bool.false_or] at hb
            intro he
            rw [he] at hb
            simp at hb
        next => simp at h
      next hd => simp at h
    next hc => simp at h
  next => simp at h

/-- Characterization of a successful numeric-field parse: the capture is a
nonempty run of digits and dots and the input splits as capture then rest. -/
lemma parseNum_some {cs g r : List Char} (h : parseNum cs = some (g, r)) :
    cs = g ++ r ∧ g ≠ [] ∧ (∀ c ∈ g, isDig c = true ∨ c = '.') := by
  unfold parseNum at h
  have hsplit := List.takeWhile_append_dropWhile isDig cs
  have hdigs : ∀ c ∈ cs.takeWhile isDig, isDig c = true ∨ c = '.' :=
    fun c hm => Or.inl (List.mem_takeWhile_imp hm)
  split at h
  next => simp at h
  next he =>
    have hne : cs.takeWhile isDig ≠ [] := by
      intro he2; rw [he2] at he; simp at he
    split at h
    next c r2 hd =>
      split at h
      next hc =>
        subst hc
        split at h
        next hf =>
          simp only [Option.some.injEq, Prod.mk.injEq] at h
          obtain ⟨hg, hr⟩ := h
          subst hg; subst hr
          exact ⟨hsplit.symm, hne, hdigs⟩
        next hf =>
          simp only [Option.some.injEq, Prod.mk.injEq] at h
          obtain ⟨hg, hr⟩ := h
          subst hg; subst hr
          constructor
          · have hsplit2 := List.takeWhile_append_dropWhile isDig r2
            rw [hd] at hsplit
            refine hsplit.symm.trans ?_
            conv_lhs => rw [← hsplit2]
            simp
          · refine ⟨by simp [hne], ?_⟩
            intro c hm
            rw [List.mem_append] at hm
            rcases hm with hm | hm
            · exact hdigs c hm
            · rcases List.mem_cons.1 hm with hm | hm
              · exact Or.inr hm
              · exact Or.inl (List.mem_takeWhile_imp hm)
      next hc =>
        simp only [Option.some.injEq, Prod.mk.injEq] at h
        obtain ⟨hg, hr⟩ := h
        subst hg; subst hr
        exact ⟨hsplit.symm, hne, hdigs⟩
    next hd =>
      simp only [Option.some.injEq, Prod.mk.injEq] at h
      obtain ⟨hg, hr⟩ := h
      subst hg; subst hr
      exact ⟨hsplit.symm, hne, hdigs⟩

/-- Characterization of a successful separator parse: a comma, then a run of
whitespace, then the rest. -/
lemma parseCommaWs_some {cs r : List Char} (h : parseCommaWs cs = some r) :
    ∃ ws, cs = ',' :: (ws ++ r) ∧ ∀ c ∈ ws, isPySpace c = true := by
  unfold parseCommaWs at h
  split at h
  next c rest =>
    split at h
    next hc =>
      simp only [Option.some.injEq] at h
      subst hc; subst h
      refine ⟨rest.takeWhile isPySpace, ?_, fun c hm => List.mem_takeWhile_imp hm⟩
      rw [List.takeWhile_append_dropWhile]
    next hc => simp at h
  next => simp at h

/-- How many quotes one token consumes. -/
def tokQuotes : Tok → Nat
  | Tok.quoted _ => 2
  | Tok.num => 0

/-- Consumption facts for one token: quote count, quote-freeness of the
capture, and membership of capture and rest in the input. -/
lemma runTok_some {t : Tok} {cs g r : List Char} (h : runTok t cs = some (g, r)) :
    List.count sqc cs = tokQuotes t + List.count sqc r ∧
    (∀ c ∈ g, c ≠ sqc) ∧ (∀ c ∈ g, c ∈ cs) ∧ (∀ c ∈ r, c ∈ cs) := by
  cases t with
  | quoted b =>
    have h' : parseQuoted b cs = some (g, r) := h
    obtain ⟨hcs, hq, _⟩ := parseQuoted_some h'
    subst hcs
    refine ⟨?_, hq, ?_, ?_⟩
    · simp [List.count_cons, List.count_append, count_sq_eq_zero hq, tokQuotes]
      omega
    · intro c hm
      simp [List.mem_cons, List.mem_append, hm]
    · intro c hm
      simp [List.mem_cons, List.mem_append, hm]
  | num =>
    have h' : parseNum cs = some (g, r) := h
    obtain ⟨hcs, _, hdig⟩ := parseNum_some h'
    have hq : ∀ c ∈ g, c ≠ sqc := by
      intro c hm
      rcases hdig c hm with hd | hd
      · exact isDig_ne_sq hd
      · subst hd; decide
    subst hcs
    refine ⟨?_, hq, ?_, ?_⟩
    · simp [List.count_append, count_sq_eq_zero hq, tokQuotes]
    · intro c hm
      simp [List.mem_append, hm]
    · intro c hm
      simp [List.mem_append, hm]

/-- Consumption facts for a separator parse. -/
lemma parseCommaWs_facts {cs r : List Char} (h : parseCommaWs cs = some r) :
    List.count sqc cs = List.count sqc r ∧ (∀ c ∈ r, c ∈ cs) := by
  obtain ⟨ws, hcs, hws⟩ := parseCommaWs_some h
  subst hcs
  have hwq : ∀ c ∈ ws, c ≠ sqc := fun c hm => isPySpace_ne_sq (hws c hm)
  constructor
  · have : (',' : Char) ≠ sqc := by decide
    simp [List.count_cons, List.count_append, count_sq_eq_zero hwq, this]
  · intro c hm
    simp [List.mem_cons, List.mem_append, hm]

/-- Consumption facts for a whole token run: the input holds exactly the
quotes of the pattern plus those of the rest, every capture is quote-free,
and captures and rest are made of characters of the input. -/
lemma runToks_some : ∀ {ts : List Tok} {cs : List Char} {gs : List (List Char)} {r : List Char},
    runToks ts cs = some (gs, r) →
    List.count sqc cs = 2 * quotedCount ts + List.count sqc r ∧
    (∀ g ∈ gs, ∀ c ∈ g, c ≠ sqc) ∧
    (∀ g ∈ gs, ∀ c ∈ g, c ∈ cs) ∧
    (∀ c ∈ r, c ∈ cs) := by
  intro ts
  induction ts with
  | nil =>
    intro cs gs r h
    simp only [runToks, Option.some.injEq, Prod.mk.injEq] at h
    obtain ⟨hg, hr⟩ := h
    subst hg; subst hr
    simp [quotedCount]
  | cons t ts ih =>
    intro cs gs r h
    rw [runToks] at h
    split at h
    next => simp at h
    next g r1 htk =>
      obtain ⟨hc1, hq1, hm1, hr1⟩ := runTok_some htk
      split at h
      next =>
        simp only [Option.some.injEq, Prod.mk.injEq] at h
        obtain ⟨hg, hr⟩ := h
        subst hg; subst hr
        refine ⟨?_, ?_, ?_, hr1⟩
        · cases t <;> simp [tokQuotes, quotedCount] at hc1 ⊢ <;> omega
        · intro g2 hg2
          rcases List.mem_singleton.1 hg2 with rfl
          exact hq1
        · intro g2 hg2
          rcases List.mem_singleton.1 hg2 with rfl
          exact hm1
      next =>
        split at h
        next => simp at h
        next r2 hpc =>
          split at h
          next => simp at h
          next gs2 r3 hrt =>
            simp only [Option.some.injEq, Prod.mk.injEq] at h
            obtain ⟨hg, hr⟩ := h
            subst hg; subst hr
            obtain ⟨hc2, hm2⟩ := parseCommaWs_facts hpc
            obtain ⟨hc3, hq3, hm3, hr3⟩ := ih hrt
            refine ⟨?_, ?_, ?_, ?_⟩
            · cases t <;> simp [tokQuotes, quotedCount] at hc1 ⊢ <;> omega
            · intro g2 hg2
              rcases List.mem_cons.1 hg2 with rfl | hg2
              · exact hq1
              · exact hq3 g2 hg2
            · intro g2 hg2 c hcm
              rcases List.mem_cons.1 hg2 with rfl | hg2
              · exact hm1 c hcm
              · exact hr1 _ (hm2 _ (hm3 g2 hg2 c hcm))
            · intro c hcm
              exact hr1 _ (hm2 _ (hr3 c hcm))

/-- A successful whole-pattern match needs at least twelve quote characters
in the input (two for each of the six quoted fields). -/
lemma matchAt_some_count {cs : List Char} {gs : List (List Char)}
    (h : matchAt cs = some gs) : 12 ≤ List.count sqc cs := by
  unfold matchAt at h
  split at h
  next c r0 =>
    split at h
    next hc =>
      subst hc
      split at h
      next gs2 r hrt =>
        obtain ⟨hcnt, -, -, -⟩ := runToks_some hrt
        have hp : quotedCount pat = 6 := by rfl
        rw [hp] at hcnt
        have hc0 : List.count sqc ('(' :: r0) = List.count sqc r0 := by
          rw [List.count_cons]
          have : ¬('(' : Char) = sqc := by decide
          simp [this]
        omega
      next => simp at h
    next => simp at h
  next => simp at h

/-- The captures of a successful whole-pattern match are quote-free, consist
of characters of the input, and the first capture (the food name) is
nonempty. -/
lemma matchAt_some_facts {cs : List Char} {gs : List (List Char)}
    (h : matchAt cs = some gs) :
    (∀ g ∈ gs, ∀ c ∈ g, c ≠ sqc) ∧ (∀ g ∈ gs, ∀ c ∈ g, c ∈ cs) ∧
    gs.getD 0 [] ≠ [] := by
  unfold matchAt at h
  split at h
  next c r0 =>
    split at h
    next hc =>
      subst hc
      split at h
      next gs2 r hrt =>
        have hgs : gs2 = gs := by
          split at h
          next =>
            split at h
            · simpa using h
            · simp at h
          next => simp at h
        subst hgs
        obtain ⟨-, hq, hm, -⟩ := runToks_some hrt
        refine ⟨hq, ?_, ?_⟩
        · intro g hg c hcm
          exact List.mem_cons_of_mem _ (hm g hg c hcm)
        · unfold pat at hrt
          rw [runToks] at hrt
          split at hrt
          next => simp at hrt
          next g r1 htk =>
            have h' : parseQuoted false r0 = some (g, r1) := htk
            obtain ⟨-, -, hne⟩ := parseQuoted_some h'
            have hg := hne rfl
            split at hrt
            next =>
              simp only [Option.some.injEq, Prod.mk.injEq] at hrt
              obtain ⟨hgs, -⟩ := hrt
              rw [← hgs]
              simpa using hg
            next =>
              split at hrt
              next => simp at hrt
              next r2 hpc =>
                split at hrt
                next => simp at hrt
                next gs3 r3 hrt2 =>
                  simp only [Option.some.injEq, Prod.mk.injEq] at hrt
                  obtain ⟨hgs, -⟩ := hrt
                  rw [← hgs]
                  simpa using hg
      next => simp at h
    next => simp at h
  next => simp at h

/-- Forward construction: a quoted-field parse succeeds on a quote, a
quote-free body, a quote and a rest. -/
lemma parseQuoted_build {b : Bool} {g : List Char} (r : List Char)
    (hq : ∀ c ∈ g, c ≠ sqc) (hne : b = true ∨ g ≠ []) :
    parseQuoted b (sqc :: (g ++ sqc :: r)) = some (g, r) := by
  have hpq : ∀ c ∈ g, (fun d => d != sqc) c = true := by
    intro c hm; simpa using hq c hm
  have hd : (g ++ sqc :: r).dropWhile (fun d => d != sqc) = sqc :: r := by
    rw [List.dropWhile_append_of_pos hpq, List.dropWhile_cons_of_neg (by simp)]
  have ht : (g ++ sqc :: r).takeWhile (fun d => d != sqc) = g := by
    rw [List.takeWhile_append_of_pos hpq, List.takeWhile_cons_of_neg (by simp)]
    simp
  have hbb : (b || !g.isEmpty) = true := by
    rcases hne with hb | hg
    · subst hb; simp
    · simp [List.isEmpty_iff, hg]
  simp [parseQuoted, hd, ht, hbb]

/-- Forward construction: a separator parse on comma, space, quote. -/
lemma parseCommaWs_build (r : List Char) :
    parseCommaWs (',' :: ' ' :: sqc :: r) = some (sqc :: r) := by
  have h1 : List.dropWhile isPySpace (' ' :: sqc :: r) = sqc :: r := by
    rw [List.dropWhile_cons_of_pos (by decide), List.dropWhile_cons_of_neg (by decide)]
  simp [parseCommaWs, h1]

/-- A numeric-field parse fails on a leading quote. -/
lemma parseNum_sq_none (r : List Char) : parseNum (sqc :: r) = none := by
  have h1 : List.takeWhile isDig (sqc :: r) = [] := List.takeWhile_cons_of_neg (by decide)
  simp [parseNum, h1]

/-- The pattern cannot match at the opening parenthesis of a rebuilt line:
after the two leading quoted fields the pattern demands a bare number, but
the rebuilt line has a quote there. -/
lemma matchAt_rebuilt_none {g0 g1 : List Char} (rest : List Char)
    (h0 : ∀ c ∈ g0, c ≠ sqc) (h0ne : g0 ≠ []) (h1 : ∀ c ∈ g1, c ≠ sqc) :
    matchAt ('(' :: sqc ::
      (g0 ++ sqc :: ',' :: ' ' :: sqc ::
        (g1 ++ sqc :: ',' :: ' ' :: sqc :: rest))) = none := by
  have e1 : parseQuoted false
      (sqc :: (g0 ++ sqc :: (',' :: ' ' :: sqc :: (g1 ++ sqc :: ',' :: ' ' :: sqc :: rest))))
      = some (g0, ',' :: ' ' :: sqc :: (g1 ++ sqc :: ',' :: ' ' :: sqc :: rest)) :=
    parseQuoted_build _ h0 (Or.inr h0ne)
  have e2 : parseCommaWs (',' :: ' ' :: sqc :: (g1 ++ sqc :: ',' :: ' ' :: sqc :: rest))
      = some (sqc :: (g1 ++ sqc :: ',' :: ' ' :: sqc :: rest)) := parseCommaWs_build _
  have e3 : parseQuoted true (sqc :: (g1 ++ sqc :: (',' :: ' ' :: sqc :: rest)))
      = some (g1, ',' :: ' ' :: sqc :: rest) := parseQuoted_build _ h1 (Or.inl rfl)
  have e4 : parseCommaWs (',' :: ' ' :: sqc :: rest) = some (sqc :: rest) :=
    parseCommaWs_build _
  have e5 : parseNum (sqc :: rest) = none := parseNum_sq_none _
  simp only [matchAt, pat, runToks, runTok, e1, e2, e3, e4, e5]
  simp

/-- matchAt fails on anything not starting with an opening parenthesis. -/
lemma matchAt_not_paren {cs : List Char} (h : cs.head? ≠ some '(') :
    matchAt cs = none := by
  cases cs with
  | nil => rfl
  | cons c r0 =>
    have hc : ¬ c = '(' := by
      intro he; subst he; simp at h
    simp [matchAt, hc]

/-- If the pattern matches at no position, the search fails. -/
lemma searchFrom_none_of (l : List Char) (h : ∀ n, matchAt (l.drop n) = none) :
    searchFrom l = none := by
  induction l with
  | nil => rfl
  | cons c cs ih =>
    rw [searchFrom]
    have h0 := h 0
    rw [List.drop_zero] at h0
    rw [h0]
    exact ih fun n => by have := h (n + 1); rwa [List.drop_succ_cons] at this

/-- Search facts: a successful search yields quote-free captures made of
characters of the input, with a nonempty first capture. -/
lemma searchFrom_some_facts {l : List Char} {gs : List (List Char)}
    (h : searchFrom l = some gs) :
    (∀ g ∈ gs, ∀ c ∈ g, c ≠ sqc) ∧ (∀ g ∈ gs, ∀ c ∈ g, c ∈ l) ∧
    gs.getD 0 [] ≠ [] := by
  induction l with
  | nil => simp [searchFrom] at h
  | cons c cs ih =>
    rw [searchFrom] at h
    split at h
    next gs2 hm =>
      simp only [Option.some.injEq] at h
      subst h
      obtain ⟨hq, hmem, hne⟩ := matchAt_some_facts hm
      exact ⟨hq, hmem, hne⟩
    next hm =>
      obtain ⟨hq, hmem, hne⟩ := ih h
      exact ⟨hq, fun g hg c hcm => List.mem_cons_of_mem _ (hmem g hg c hcm), hne⟩

lemma digitChar_isDig (k : Nat) : isDig (digitChar k) = true := by
  unfold digitChar
  split <;> decide

lemma natDigitsAux_isDig : ∀ f n c, c ∈ natDigitsAux f n → isDig c = true := by
  intro f
  induction f with
  | zero => intro n c h; simp [natDigitsAux] at h
  | succ f ih =>
    intro n c h
    rw [natDigitsAux] at h
    split at h
    · rcases List.mem_singleton.1 h with rfl
      exact digitChar_isDig n
    · rcases List.mem_append.1 h with h | h
      · exact ih _ _ h
      · rcases List.mem_singleton.1 h with rfl
        exact digitChar_isDig _

/-- The merged serving description has no quote when neither the size nor the
unit capture has one. -/
lemma serving_desc_sq_free {size unit : List Char}
    (hs : ∀ c ∈ size, c ≠ sqc) (hu : ∀ c ∈ unit, c ≠ sqc) :
    ∀ c ∈ serving_desc size unit, c ≠ sqc := by
  intro c h
  unfold serving_desc at h
  split at h
  · rcases List.mem_append.1 h with h | h
    · exact isDig_ne_sq (natDigitsAux_isDig _ _ _ h)
    · rcases List.mem_singleton.1 h with rfl
      decide
  · unfold serving_desc_init at h
    split at h
    · rcases List.mem_append.1 h with h | h
      · exact hs _ h
      · exact hu _ h
    · rcases List.mem_append.1 h with h | h
      · exact hs _ h
      · rcases List.mem_singleton.1 h with rfl
        decide

/-- Lift a per-capture property through an indexed access with default. -/
lemma getD_forall {gs : List (List Char)} {P : Char → Prop}
    (hq : ∀ g ∈ gs, ∀ c ∈ g, P c) (i : Nat) : ∀ c ∈ gs.getD i [], P c := by
  intro c hc
  rcases Nat.lt_or_ge i gs.length with hi | hi
  · rw [List.getD_eq_getElem?_getD, List.getElem?_eq_getElem hi] at hc
    exact hq _ (List.getElem_mem hi) c hc
  · rw [List.getD_eq_getElem?_getD, List.getElem?_eq_none hi] at hc
    simp at hc

/-- The tail of the rebuilt tuple after the closing quote of the serving
description and its separator: the six bare numbers and the three last
quoted fields. -/
def tuple_rest (gs : List (List Char)) : List Char :=
  gs.getD 4 [] ++ ',' :: ' ' :: (gs.getD 5 [] ++ ',' :: ' ' :: (gs.getD 6 [] ++ ',' :: ' ' ::
    (gs.getD 7 [] ++ ',' :: ' ' :: (gs.getD 8 [] ++ ',' :: ' ' :: (gs.getD 9 [] ++ ',' :: ' ' ::
      sqc :: (gs.getD 10 [] ++ sqc :: ',' :: ' ' :: sqc :: (gs.getD 11 [] ++ sqc :: ',' :: ' ' ::
        sqc :: (gs.getD 12 [] ++ [sqc, ')']))))))))

/-- Cons-normal form of the rebuilt tuple. -/
lemma new_tuple_normal (gs : List (List Char)) (desc : List Char) :
    new_tuple gs desc = ' ' :: ' ' :: '(' :: sqc ::
      (gs.getD 0 [] ++ sqc :: ',' :: ' ' :: sqc ::
        (gs.getD 1 [] ++ sqc :: ',' :: ' ' :: sqc ::
          (desc ++ sqc :: ',' :: ' ' :: tuple_rest gs))) := by
  simp [new_tuple, tuple_rest, quoteField, commaSp, List.append_assoc]

lemma count_getD_zero {gs : List (List Char)}
    (hq : ∀ g ∈ gs, ∀ c ∈ g, c ≠ sqc) (i : Nat) :
    List.count sqc (gs.getD i []) = 0 := count_sq_eq_zero (getD_forall hq i)

lemma count_tuple_rest {gs : List (List Char)}
    (hq : ∀ g ∈ gs, ∀ c ∈ g, c ≠ sqc) :
    List.count sqc (tuple_rest gs) = 6 := by
  simp only [tuple_rest, List.count_append, List.count_cons, List.count_nil,
    count_getD_zero hq,
    if_neg (show ¬((',' == sqc) = true) from by decide),
    if_neg (show ¬((' ' == sqc) = true) from by decide),
    if_neg (show ¬((')' == sqc) = true) from by decide),
    if_pos (show (sqc == sqc) = true from by decide)]

/-- The rebuilt tuple holds exactly twelve quote characters. -/
lemma count_new_tuple {gs : List (List Char)} {desc : List Char}
    (hq : ∀ g ∈ gs, ∀ c ∈ g, c ≠ sqc) (hd : ∀ c ∈ desc, c ≠ sqc) :
    List.count sqc (new_tuple gs desc) = 12 := by
  have hdc := count_sq_eq_zero hd
  rw [new_tuple_normal]
  simp only [List.count_append, List.count_cons, List.count_nil,
    count_getD_zero hq, hdc, count_tuple_rest hq,
    if_neg (show ¬((',' == sqc) = true) from by decide),
    if_neg (show ¬((' ' == sqc) = true) from by decide),
    if_neg (show ¬(('(' == sqc) = true) from by decide),
    if_pos (show (sqc == sqc) = true from by decide)]

/-- Unfolding of the fixer on a non-candidate line. -/
lemma fixLineL_id_of_not_candidate {line : List Char}
    (h : beginsWith startTok (pyStrip line) = false) : fixLineL line = line := by
  unfold fixLineL
  rw [h]
  simp

/-- Unfolding of the fixer when the search fails. -/
lemma fixLineL_id_of_search_none {line : List Char} (h : searchFrom line = none) :
    fixLineL line = line := by
  unfold fixLineL
  split
  · rfl
  · rw [h]

/-- Unfolding of the fixer on a matched candidate line. -/
lemma fixLineL_eq_of_some {line : List Char} {gs : List (List Char)}
    (hc : beginsWith startTok (pyStrip line) = true)
    (hm : searchFrom line = some gs) :
    fixLineL line =
      (if lastIs (pyRstrip line) ',' then
          new_tuple gs (serving_desc (gs.getD 2 []) (gs.getD 3 [])) ++ [',']
        else if lastIs (pyRstrip line) ';' then
          new_tuple gs (serving_desc (gs.getD 2 []) (gs.getD 3 [])) ++ [';']
        else new_tuple gs (serving_desc (gs.getD 2 []) (gs.getD 3 []))) ++ ['\n'] := by
  unfold fixLineL
  rw [hc, hm]
  simp

lemma matchAt_cons_ne {c : Char} (h : ¬ c = '(') (l : List Char) :
    matchAt (c :: l) = none := by
  simp [matchAt, h]

/-- The 13-field pattern matches nowhere in a rebuilt output line followed by
any quote-free suffix: a match starting at or after the first field would
find at most eleven quotes, a match at the opening parenthesis meets a quote
where the pattern requires a bare number, and no other position starts with a
parenthesis followed by a quote. -/
lemma searchFrom_rebuilt_none {gs : List (List Char)} {desc S : List Char}
    (hq : ∀ g ∈ gs, ∀ c ∈ g, c ≠ sqc)
    (hd : ∀ c ∈ desc, c ≠ sqc)
    (hne : gs.getD 0 [] ≠ [])
    (hS : List.count sqc S = 0) :
    searchFrom (new_tuple gs desc ++ S) = none := by
  have hnorm : new_tuple gs desc ++ S = ' ' :: ' ' :: '(' :: sqc ::
      (gs.getD 0 [] ++ sqc :: ',' :: ' ' :: sqc ::
        (gs.getD 1 [] ++ sqc :: ',' :: ' ' :: sqc ::
          (desc ++ sqc :: ',' :: ' ' :: (tuple_rest gs ++ S)))) := by
    rw [new_tuple_normal]
    simp [List.append_assoc]
  have hcount : List.count sqc (new_tuple gs desc ++ S) = 12 := by
    rw [List.count_append, count_new_tuple hq hd, hS]
  have hdrop4 : List.count sqc ((new_tuple gs desc ++ S).drop 4) = 11 := by
    have h1 := (List.take_append_drop 4 (new_tuple gs desc ++ S)).symm
    have h2 : (new_tuple gs desc ++ S).take 4 = [' ', ' ', '(', sqc] := by
      rw [hnorm]
      rfl
    have h3 := hcount
    rw [h1, List.count_append, h2] at h3
    have h4 : List.count sqc [' ', ' ', '(', sqc] = 1 := by decide
    rw [h4] at h3
    omega
  apply searchFrom_none_of
  intro n
  obtain _ | n := n
  · rw [List.drop_zero, hnorm]
    exact matchAt_cons_ne (by decide) _
  obtain _ | n := n
  · rw [hnorm, List.drop_succ_cons, List.drop_zero]
    exact matchAt_cons_ne (by decide) _
  obtain _ | n := n
  · rw [hnorm, List.drop_succ_cons, List.drop_succ_cons, List.drop_zero]
    exact matchAt_rebuilt_none _ (getD_forall hq 0) hne (getD_forall hq 1)
  obtain _ | n := n
  · rw [hnorm, List.drop_succ_cons, List.drop_succ_cons, List.drop_succ_cons,
      List.drop_zero]
    exact matchAt_cons_ne (by decide) _
  have hgen : ∀ m, 4 ≤ m → matchAt ((new_tuple gs desc ++ S).drop m) = none := by
    intro m hm
    cases hmm : matchAt ((new_tuple gs desc ++ S).drop m) with
    | none => rfl
    | some gs2 =>
      exfalso
      have h12 := matchAt_some_count hmm
      have hle : List.count sqc ((new_tuple gs desc ++ S).drop m) ≤
          List.count sqc ((new_tuple gs desc ++ S).drop 4) :=
        (List.drop_sublist_drop_left _ hm).count_le sqc
      omega
  exact hgen _ (by omega)

/-- The serving description computed by the two assignments of the script
collapses to a single conditional: the truncated-integer form in the
grams-greater-than-one case, the raw concatenation otherwise. -/
lemma serving_desc_eq_formula (size unit : List Char) :
    serving_desc size unit =
      if unit = [gch] ∧ 1 < int_float size then natStr (int_float size) ++ [gch]
      else size ++ unit := by
  by_cases h1 : unit = [gch]
  · by_cases h2 : 1 < int_float size
    · simp [serving_desc, serving_desc_init, h1, h2]
    · simp [serving_desc, serving_desc_init, h1, h2]
  · simp [serving_desc, serving_desc_init, h1]

lemma count_zero_of_ne {a : Char} {g : List Char} (h : ∀ c ∈ g, c ≠ a) :
    List.count a g = 0 := List.count_eq_zero.2 fun hm => (h _ hm) rfl

lemma count_getD_zero_nl {gs : List (List Char)}
    (hq : ∀ g ∈ gs, ∀ c ∈ g, c ≠ '\n') (i : Nat) :
    List.count '\n' (gs.getD i []) = 0 := count_zero_of_ne (getD_forall hq i)

/-- The merged serving description has no line break when neither the size
nor the unit capture has one. -/
lemma serving_desc_nl_free {size unit : List Char}
    (hs : ∀ c ∈ size, c ≠ '\n') (hu : ∀ c ∈ unit, c ≠ '\n') :
    ∀ c ∈ serving_desc size unit, c ≠ '\n' := by
  intro c h
  unfold serving_desc at h
  split at h
  · rcases List.mem_append.1 h with h | h
    · have hdg := natDigitsAux_isDig _ _ _ h
      intro he
      subst he
      exact absurd hdg (by decide)
    · rcases List.mem_singleton.1 h with rfl
      decide
  · unfold serving_desc_init at h
    split at h
    · rcases List.mem_append.1 h with h | h
      · exact hs _ h
      · exact hu _ h
    · rcases List.mem_append.1 h with h | h
      · exact hs _ h
      · rcases List.mem_singleton.1 h with rfl
        decide

lemma count_nl_tuple_rest {gs : List (List Char)}
    (hq : ∀ g ∈ gs, ∀ c ∈ g, c ≠ '\n') :
    List.count '\n' (tuple_rest gs) = 0 := by
  simp only [tuple_rest, List.count_append, List.count_cons, List.count_nil,
    count_getD_zero_nl hq,
    if_neg (show ¬((',' == '\n') = true) from by decide),
    if_neg (show ¬((' ' == '\n') = true) from by decide),
    if_neg (show ¬((')' == '\n') = true) from by decide),
    if_neg (show ¬((sqc == '\n') = true) from by decide)]

/-- The rebuilt tuple holds no line break when its fields hold none. -/
lemma count_nl_new_tuple {gs : List (List Char)} {desc : List Char}
    (hq : ∀ g ∈ gs, ∀ c ∈ g, c ≠ '\n') (hd : ∀ c ∈ desc, c ≠ '\n') :
    List.count '\n' (new_tuple gs desc) = 0 := by
  rw [new_tuple_normal]
  simp only [List.count_append, List.count_cons, List.count_nil,
    count_getD_zero_nl hq, count_zero_of_ne hd, count_nl_tuple_rest hq,
    if_neg (show ¬((',' == '\n') = true) from by decide),
    if_neg (show ¬((' ' == '\n') = true) from by decide),
    if_neg (show ¬(('(' == '\n') = true) from by decide),
    if_neg (show ¬((sqc == '\n') = true) from by decide)]

/-- C5: the fixer line transformation is idempotent: for every input line L,
fix_values_line (fix_values_line L) = fix_values_line L; in particular a
rewritten 11-column output line does not match the 13-column pattern again,
so a second run leaves every line unchanged. -/
theorem fix_values_line_idempotent (s : String) :
    fix_values_line (fix_values_line s) = fix_values_line s := by
  have key : fixLineL (fixLineL s.data) = fixLineL s.data := by
    cases hcb : beginsWith startTok (pyStrip s.data) with
    | false =>
      rw [fixLineL_id_of_not_candidate hcb]
      exact fixLineL_id_of_not_candidate hcb
    | true =>
      cases hm : searchFrom s.data with
      | none =>
        rw [fixLineL_id_of_search_none hm]
        exact fixLineL_id_of_search_none hm
      | some gs =>
        obtain ⟨hq, hmem, hne⟩ := searchFrom_some_facts hm
        have hd := serving_desc_sq_free (getD_forall hq 2) (getD_forall hq 3)
        obtain ⟨S, hOS, hS⟩ : ∃ S, fixLineL s.data =
            new_tuple gs (serving_desc (gs.getD 2 []) (gs.getD 3 [])) ++ S ∧
            List.count sqc S = 0 := by
          rw [fixLineL_eq_of_some hcb hm]
          by_cases h1 : lastIs (pyRstrip s.data) ',' = true
          · refine ⟨[',', '\n'], ?_, by decide⟩
            rw [if_pos h1]
            simp
          · by_cases h2 : lastIs (pyRstrip s.data) ';' = true
            · refine ⟨[';', '\n'], ?_, by decide⟩
              rw [if_neg h1, if_pos h2]
              simp
            · exact ⟨['\n'], by rw [if_neg h1, if_neg h2], by decide⟩
        rw [hOS]
        exact fixLineL_id_of_search_none (searchFrom_rebuilt_none hq hd hne hS)
  show String.mk (fixLineL (String.mk (fixLineL s.data)).data) = String.mk (fixLineL s.data)
  exact congrArg String.mk key

/-- C4: a line whose stripped form does not start with parenthesis-quote, or
which fails the 13-field pattern, is returned unchanged, character for
character, and the transformation is total (no error path exists). -/
theorem fix_values_line_passthrough (s : String)
    (h : beginsWith startTok (pyStrip s.data) = false ∨ searchFrom s.data = none) :
    fix_values_line s = s := by
  have key : fixLineL s.data = s.data := by
    rcases h with h | h
    · exact fixLineL_id_of_not_candidate h
    · exact fixLineL_id_of_search_none h
  show String.mk (fixLineL s.data) = s
  rw [key]

theorem fix_values_line_passthrough_witness :
    (beginsWith startTok (pyStrip ("-- Insert foods\n").data) = false ∨
      searchFrom ("-- Insert foods\n").data = none) ∧
    fix_values_line ("-- Insert foods\n") = "-- Insert foods\n" :=
  ⟨Or.inl (by decide), fix_values_line_passthrough _ (Or.inl (by decide))⟩

/-- C2: on every matched line the merged serving-description field equals the
decimal rendering of int (float size) followed by g when the unit is exactly
g and that integer exceeds one, and otherwise equals the original size text
concatenated with the unit text with no separator and no reformatting.
Here int_float is the exact binary64 model of int (float size): round the
decimal value to the nearest double, ties to even, then truncate.  The
hypothesis hov confines the statement to lines on which the program
completes: when the unit is g the script evaluates int (float size), and for
the roughly 309-digit sizes whose rounding reaches infinity that call raises
OverflowError and no line is produced at all (for any other unit the
conjunction short-circuits and nothing is evaluated). -/
theorem fixer_merged_serving_desc (s : String) (gs : List (List Char))
    (hc : beginsWith startTok (pyStrip s.data) = true)
    (hm : searchFrom s.data = some gs)
    (_hov : gs.getD 3 [] = [gch] → int_float_overflows (gs.getD 2 []) = false) :
    fix_values_line s = String.mk
      (new_tuple gs
        (if gs.getD 3 [] = [gch] ∧ 1 < int_float (gs.getD 2 [])
          then natStr (int_float (gs.getD 2 [])) ++ [gch]
          else gs.getD 2 [] ++ gs.getD 3 []) ++
      ((if lastIs (pyRstrip s.data) ',' then [','] else
        if lastIs (pyRstrip s.data) ';' then [';'] else []) ++ ['\n'])) := by
  have key : fixLineL s.data = new_tuple gs
      (if gs.getD 3 [] = [gch] ∧ 1 < int_float (gs.getD 2 [])
        then natStr (int_float (gs.getD 2 [])) ++ [gch]
        else gs.getD 2 [] ++ gs.getD 3 []) ++
      ((if lastIs (pyRstrip s.data) ',' then [','] else
        if lastIs (pyRstrip s.data) ';' then [';'] else []) ++ ['\n']) := by
    rw [fixLineL_eq_of_some hc hm, ← serving_desc_eq_formula]
    by_cases h1 : lastIs (pyRstrip s.data) ',' = true
    · rw [if_pos h1, if_pos h1]
      simp
    · rw [if_neg h1, if_neg h1]
      by_cases h2 : lastIs (pyRstrip s.data) ';' = true
      · rw [if_pos h2, if_pos h2]
        simp
      · rw [if_neg h2, if_neg h2]
        simp
  show String.mk (fixLineL s.data) = _
  rw [key]

theorem fixer_merged_serving_desc_witness :
    beginsWith startTok
      (pyStrip ("  (\x27Banana\x27, \x27\x27, 1, \x27medium\x27, 105, 1, 27, 0, 3, 14, \x27Fruit\x27, \x27USDA\x27, \x27active\x27);\n").data) = true ∧
    fix_values_line
      "  (\x27Banana\x27, \x27\x27, 1, \x27medium\x27, 105, 1, 27, 0, 3, 14, \x27Fruit\x27, \x27USDA\x27, \x27active\x27);\n" =
      "  (\x27Banana\x27, \x27\x27, \x271medium\x27, 105, 1, 27, 0, 3, 14, \x27Fruit\x27, \x27USDA\x27, \x27active\x27);\n" := by
  refine ⟨by decide, ?_⟩
  rw [fixer_merged_serving_desc _
    [("Banana").data, ("").data, ("1").data, ("medium").data, ("105").data, ("1").data,
     ("27").data, ("0").data, ("3").data, ("14").data, ("Fruit").data, ("USDA").data,
     ("active").data] (by decide) (by decide) (by decide)]
  decide

/-- C8: a matched fixer line is rewritten as an 11-field tuple literal with
exactly two leading spaces, ends with a comma exactly when the right-stripped
original ended with a comma, with a semicolon when it ended with a semicolon,
with neither otherwise, and carries exactly one line break, at the very end
(stated for input lines that hold no line break themselves). -/
theorem fixer_output_format (s : String) (gs : List (List Char))
    (hc : beginsWith startTok (pyStrip s.data) = true)
    (hm : searchFrom s.data = some gs) :
    fix_values_line s = String.mk
      ((' ' :: ' ' :: '(' :: sqc ::
        (gs.getD 0 [] ++ sqc :: ',' :: ' ' :: sqc ::
          (gs.getD 1 [] ++ sqc :: ',' :: ' ' :: sqc ::
            (serving_desc (gs.getD 2 []) (gs.getD 3 []) ++ sqc :: ',' :: ' ' ::
              tuple_rest gs)))) ++
        ((if lastIs (pyRstrip s.data) ',' then [','] else
           if lastIs (pyRstrip s.data) ';' then [';'] else []) ++ ['\n'])) ∧
    (('\n') ∉ s.data → List.count '\n' (fix_values_line s).data = 1) := by
  obtain ⟨hq, hmem, hne⟩ := searchFrom_some_facts hm
  have key : fixLineL s.data =
      new_tuple gs (serving_desc (gs.getD 2 []) (gs.getD 3 [])) ++
      ((if lastIs (pyRstrip s.data) ',' then [','] else
        if lastIs (pyRstrip s.data) ';' then [';'] else []) ++ ['\n']) := by
    rw [fixLineL_eq_of_some hc hm]
    by_cases h1 : lastIs (pyRstrip s.data) ',' = true
    · rw [if_pos h1, if_pos h1]
      simp
    · rw [if_neg h1, if_neg h1]
      by_cases h2 : lastIs (pyRstrip s.data) ';' = true
      · rw [if_pos h2, if_pos h2]
        simp
      · rw [if_neg h2, if_neg h2]
        simp
  constructor
  · show String.mk (fixLineL s.data) = _
    rw [key, new_tuple_normal]
  · intro hn
    have hqn : ∀ g ∈ gs, ∀ c ∈ g, c ≠ '\n' := by
      intro g hg c hcm he
      exact hn (he ▸ hmem g hg c hcm)
    have hdn : ∀ c ∈ serving_desc (gs.getD 2 []) (gs.getD 3 []), c ≠ '\n' :=
      serving_desc_nl_free (getD_forall hqn 2) (getD_forall hqn 3)
    show List.count '\n' (String.mk (fixLineL s.data)).data = 1
    rw [show (String.mk (fixLineL s.data)).data = fixLineL s.data from rfl, key]
    rw [List.count_append, count_nl_new_tuple hqn hdn, List.count_append]
    have hP : List.count '\n' (if lastIs (pyRstrip s.data) ',' then [','] else
        if lastIs (pyRstrip s.data) ';' then [';'] else []) = 0 := by
      by_cases h1 : lastIs (pyRstrip s.data) ',' = true
      · rw [if_pos h1]
        decide
      · rw [if_neg h1]
        by_cases h2 : lastIs (pyRstrip s.data) ';' = true
        · rw [if_pos h2]
          decide
        · rw [if_neg h2]
          decide
    rw [hP]
    decide


theorem fixer_output_format_witness :
    fix_values_line
      "  (\x27Almonds\x27, \x27Generic\x27, 100.0, \x27g\x27, 579, 21, 22, 50, 12, 4, \x27Nuts\x27, \x27USDA\x27, \x27active\x27)," =
      "  (\x27Almonds\x27, \x27Generic\x27, \x27100g\x27, 579, 21, 22, 50, 12, 4, \x27Nuts\x27, \x27USDA\x27, \x27active\x27),\n" ∧
    List.count '\n'
      (fix_values_line
        "  (\x27Almonds\x27, \x27Generic\x27, 100.0, \x27g\x27, 579, 21, 22, 50, 12, 4, \x27Nuts\x27, \x27USDA\x27, \x27active\x27),").data = 1 := by
  have h := fixer_output_format
    "  (\x27Almonds\x27, \x27Generic\x27, 100.0, \x27g\x27, 579, 21, 22, 50, 12, 4, \x27Nuts\x27, \x27USDA\x27, \x27active\x27),"
    [("Almonds").data, ("Generic").data, ("100.0").data, ("g").data, ("579").data,
     ("21").data, ("22").data, ("50").data, ("12").data, ("4").data, ("Nuts").data,
     ("USDA").data, ("active").data] (by decide) (by decide)
  refine ⟨?_, h.2 (by decide)⟩
  rw [h.1]
  decide

/-- One CSV row of the generator input, with the nine columns the script
reads from exercises_updated_muscles.csv. -/
structure ExerciseRow where
  name : String
  description : String
  instructions : String
  category : String
  primary_muscle : String
  secondary_muscle : String
  tertiary_muscle : String
  equipment_needed : String
  difficulty_level : String

/-- Substring containment on character lists, used to state what the
generated SQL text does or does not embed. -/
def startsList : List Char → List Char → Bool
  | [], _ => true
  | _ :: _, [] => false
  | p :: ps, c :: cs => p == c && startsList ps cs

def containsList (p : List Char) : List Char → Bool
  | [] => startsList p []
  | c :: cs => startsList p (c :: cs) || containsList p cs

/-- Python str.replace of the one-character pattern quote by two quotes, as
applied to name, description, instructions and equipment_needed. -/
def escapeQuotes (s : String) : String :=
  String.mk ((s.data.map fun c => if c = sqc then [sqc, sqc] else [c]).flatten)

/-- The conditional expression assigning secondary_muscle: the CSV text when
it differs from the literal None, else the Python None. -/
def secondaryOpt (r : ExerciseRow) : Option String :=
  if r.secondary_muscle ≠ "None" then some r.secondary_muscle else none

def tertiaryOpt (r : ExerciseRow) : Option String :=
  if r.tertiary_muscle ≠ "None" then some r.tertiary_muscle else none

/-- The muscle lookup wrapper text built inside the f-string. -/
def gmiWrap (s : String) : String := "get_muscle_id(\x27" ++ s ++ "\x27)"

/-- The conditional expression inside the f-string: the wrapper when the
optional muscle is truthy in Python (neither None nor the empty string),
else the text NULL. -/
def muscleField : Option String → String
  | none => "NULL"
  | some s => if s = "" then "NULL" else gmiWrap s

/-- Python str(b).lower() for a bool b. -/
def pyBoolLower (b : Bool) : String := if b then "true" else "false"

/-- The f-string skeleton of the INSERT statement (lines 90 to 96 of the
generator), with the already-computed parts spliced in; whitespace, line
breaks and trailing spaces reproduce the source bytes. -/
def insertText (name description instructions category primary_muscle
    secPart tertPart equipment difficulty compound : String) : String :=
  "INSERT INTO exercises (name, description, instructions, category, primary_muscle_group_id, secondary_muscle_group_id, tertiary_muscle_group_id, equipment_needed, difficulty_level, is_compound, exercise_type)\nVALUES (\x27" ++
    name ++ "\x27, \x27" ++ description ++ "\x27, \x27" ++ instructions ++ "\x27, \x27" ++
    category ++ "\x27, \n        get_muscle_id(\x27" ++ primary_muscle ++
    "\x27), \n        " ++ secPart ++ ", \n        " ++ tertPart ++ ",\n        \x27" ++
    equipment ++ "\x27, \x27" ++ difficulty ++ "\x27, \n        " ++ compound ++
    ", \x27strength\x27);"

/-- The INSERT statement the generator produces for one row: quotes escaped
in name, description, instructions and equipment_needed, the muscles run
through the truthiness conditional, is_compound from the Python is-not-None
test on the secondary muscle. -/
def rowInsert (r : ExerciseRow) : String :=
  insertText (escapeQuotes r.name) (escapeQuotes r.description)
    (escapeQuotes r.instructions) r.category r.primary_muscle
    (muscleField (secondaryOpt r)) (muscleField (tertiaryOpt r))
    (escapeQuotes r.equipment_needed) r.difficulty_level
    (pyBoolLower (secondaryOpt r).isSome)

/-- The fixed DDL header the generator writes before the INSERT statements
(the sql_header triple-quoted string of the script, byte for byte). -/
def sql_header : String :=
  "-- COMPLETE 300 Exercise Insert - Generated from CSV\n-- This bypasses CSV upload and inserts all exercises directly\n\nDROP TABLE IF EXISTS exercises CASCADE;\n\nCREATE TABLE exercises (\n    id UUID PRIMARY KEY DEFAULT gen_random_uuid(),\n    name VARCHAR(255) NOT NULL UNIQUE,\n    description TEXT,\n    instructions TEXT,\n    category VARCHAR(50) NOT NULL,\n    primary_muscle_group_id UUID REFERENCES muscle_groups(id),\n    secondary_muscle_group_id UUID REFERENCES muscle_groups(id),\n    tertiary_muscle_group_id UUID REFERENCES muscle_groups(id),\n    equipment_needed TEXT,\n    difficulty_level VARCHAR(20) DEFAULT \x27Beginner\x27,\n    is_compound BOOLEAN DEFAULT false,\n    exercise_type VARCHAR(50) DEFAULT \x27strength\x27,\n    created_at TIMESTAMP WITH TIME ZONE DEFAULT NOW(),\n    updated_at TIMESTAMP WITH TIME ZONE DEFAULT NOW()\n);\n\nALTER TABLE exercises ENABLE ROW LEVEL SECURITY;\nCREATE POLICY \"Allow read access to exercises for authenticated users\" ON exercises FOR SELECT TO authenticated USING (true);\n\n-- Helper function for muscle lookup\nCREATE OR REPLACE FUNCTION get_muscle_id(muscle_name TEXT) RETURNS UUID AS $$\nBEGIN\n    IF muscle_name IS NULL OR muscle_name = \x27None\x27 THEN RETURN NULL; END IF;\n    RETURN (SELECT id FROM muscle_groups WHERE name = muscle_name LIMIT 1);\nEND;\n$$ LANGUAGE plpgsql;\n\n-- Insert all exercises\n"

/-- The fixed footer the generator writes after the INSERT statements (the
sql_footer triple-quoted string of the script, byte for byte, with the
trailing spaces of the view lines preserved). -/
def sql_footer : String :=
  "\n-- Clean up\nDROP FUNCTION get_muscle_id(TEXT);\n\n-- Create indexes and view\nCREATE INDEX idx_exercises_primary_muscle ON exercises(primary_muscle_group_id);\nCREATE INDEX idx_exercises_category ON exercises(category);\nCREATE INDEX idx_exercises_difficulty ON exercises(difficulty_level);\n\nCREATE OR REPLACE VIEW exercises_with_muscles AS\nSELECT \n    e.id, e.name, e.description, e.instructions, e.category,\n    e.equipment_needed, e.difficulty_level, e.is_compound,\n    pm.name as primary_muscle, sm.name as secondary_muscle, tm.name as tertiary_muscle\nFROM exercises e\nLEFT JOIN muscle_groups pm ON pm.id = e.primary_muscle_group_id\nLEFT JOIN muscle_groups sm ON sm.id = e.secondary_muscle_group_id  \nLEFT JOIN muscle_groups tm ON tm.id = e.tertiary_muscle_group_id;\n\n-- Results\nSELECT COUNT(*) as total_exercises,\n       COUNT(CASE WHEN category = \x27Free Weight\x27 THEN 1 END) as free_weight,\n       COUNT(CASE WHEN category = \x27Machine\x27 THEN 1 END) as machine,  \n       COUNT(CASE WHEN category = \x27Bodyweight\x27 THEN 1 END) as bodyweight\nFROM exercises;\n"

/-- The files the generator touches: the CSV input, given as parsed rows
(association lists from column name to text, as csv.DictReader yields them;
none models a missing file), and the SQL output file content. -/
structure FileState where
  csvFile : Option (List (List (String × String)))
  outFile : Option String

/-- Python dict access row with a key: the value, or a KeyError. -/
def lookupKey (row : List (String × String)) (k : String) : Except String String :=
  match row.find? (fun p => p.1 == k) with
  | some p => Except.ok p.2
  | none => Except.error ("KeyError: " ++ k)

/-- The body of the row loop of the generator: the nine column reads in
source order (a missing column raises, modelled as an error value), then the
INSERT text for the row. -/
def processRow (row : List (String × String)) : Except String String := do
  let name ← lookupKey row "name"
  let description ← lookupKey row "description"
  let instructions ← lookupKey row "instructions"
  let category ← lookupKey row "category"
  let primary_muscle ← lookupKey row "primary_muscle"
  let secondary_muscle ← lookupKey row "secondary_muscle"
  let tertiary_muscle ← lookupKey row "tertiary_muscle"
  let equipment_needed ← lookupKey row "equipment_needed"
  let difficulty_level ← lookupKey row "difficulty_level"
  pure (rowInsert ⟨name, description, instructions, category, primary_muscle,
    secondary_muscle, tertiary_muscle, equipment_needed, difficulty_level⟩)

/-- The whole generator run on a file state, following the source order: read
the CSV (uncaught error when missing), transform every row (uncaught error on
the first failing row, with nothing written), and only then write header,
statements joined by blank lines, and footer to the output file at once. -/
def generate_sql_from_csv (fs : FileState) : FileState × Except String Unit :=
  match fs.csvFile with
  | none => (fs, Except.error "FileNotFoundError: exercises_updated_muscles.csv")
  | some rows =>
    match rows.mapM processRow with
    | Except.error e => (fs, Except.error e)
    | Except.ok inserts =>
      ({ fs with
          outFile := some (sql_header ++ String.intercalate "\n\n" inserts ++ sql_footer) },
        Except.ok ())

/-- Doubling property of the quote escape: the escaped text holds exactly
twice as many quotes as the original. -/
lemma escapeQuotes_count (t : String) :
    List.count sqc (escapeQuotes t).data = 2 * List.count sqc t.data := by
  show List.count sqc ((t.data.map fun c => if c = sqc then [sqc, sqc] else [c]).flatten) = _
  induction t.data with
  | nil => rfl
  | cons c l ih =>
    rw [List.map_cons, List.flatten_cons, List.count_append, ih, List.count_cons]
    by_cases hc : c = sqc
    · subst hc
      rw [if_pos rfl, if_pos (show (sqc == sqc) = true from by decide),
        show List.count sqc [sqc, sqc] = 2 from by decide]
      omega
    · rw [if_neg hc, if_neg (show ¬((c == sqc) = true) from by simpa using hc)]
      have h1 : List.count sqc [c] = 0 := by
        rw [List.count_singleton]
        simpa using hc
      rw [h1]
      omega

/-- C7: for every CSV row the generator escapes single quotes in the name,
description, instructions and equipment_needed fields by doubling them
before splicing them into the INSERT text (first conjunct: exactly these four
fields pass through the escape); the doubling is genuine (second conjunct),
and the example name renders with both quotes doubled (third conjunct). -/
theorem generator_escapes_quotes (r : ExerciseRow) :
    rowInsert r = insertText (escapeQuotes r.name) (escapeQuotes r.description)
      (escapeQuotes r.instructions) r.category r.primary_muscle
      (muscleField (secondaryOpt r)) (muscleField (tertiaryOpt r))
      (escapeQuotes r.equipment_needed) r.difficulty_level
      (pyBoolLower (secondaryOpt r).isSome) ∧
    (∀ t : String, List.count sqc (escapeQuotes t).data = 2 * List.count sqc t.data) ∧
    escapeQuotes "O\x27Brien\x27s" = "O\x27\x27Brien\x27\x27s" :=
  ⟨rfl, escapeQuotes_count, by decide⟩

/-- C6: for every CSV row with secondary_muscle and tertiary_muscle both the
literal None, the generated INSERT renders NULL for both muscle-group
arguments (no get_muscle_id wrapper) and renders is_compound as false. -/
theorem generator_none_muscles (r : ExerciseRow)
    (h2 : r.secondary_muscle = "None") (h3 : r.tertiary_muscle = "None") :
    rowInsert r = insertText (escapeQuotes r.name) (escapeQuotes r.description)
      (escapeQuotes r.instructions) r.category r.primary_muscle
      "NULL" "NULL" (escapeQuotes r.equipment_needed) r.difficulty_level "false" := by
  have hso : secondaryOpt r = none := by simp [secondaryOpt, h2]
  have hto : tertiaryOpt r = none := by simp [tertiaryOpt, h3]
  unfold rowInsert
  rw [hso, hto]
  rfl

theorem generator_none_muscles_witness :
    rowInsert ⟨"Squat", "A squat", "Go down", "Free Weight", "Quads", "None",
      "None", "Barbell", "Beginner"⟩ =
    insertText "Squat" "A squat" "Go down" "Free Weight" "Quads"
      "NULL" "NULL" "Barbell" "Beginner" "false" := by
  rw [generator_none_muscles _ rfl rfl]
  rfl

/-- C10: a row whose secondary_muscle is the empty string (not the literal
None) gets NULL as the secondary muscle argument, because the empty string is
falsy in the truthiness test, while is_compound is nonetheless rendered true,
because the value is not the Python None; the two renderings disagree. -/
theorem generator_empty_secondary (r : ExerciseRow)
    (h : r.secondary_muscle = "") :
    muscleField (secondaryOpt r) = "NULL" ∧
    pyBoolLower (secondaryOpt r).isSome = "true" ∧
    rowInsert r = insertText (escapeQuotes r.name) (escapeQuotes r.description)
      (escapeQuotes r.instructions) r.category r.primary_muscle
      "NULL" (muscleField (tertiaryOpt r)) (escapeQuotes r.equipment_needed)
      r.difficulty_level "true" := by
  have hso : secondaryOpt r = some "" := by
    unfold secondaryOpt
    rw [h, if_pos (by decide)]
  have hmf : muscleField (some "") = "NULL" := by decide
  refine ⟨by rw [hso, hmf], by rw [hso]; rfl, ?_⟩
  unfold rowInsert
  rw [hso, hmf]
  rfl

theorem generator_empty_secondary_witness :
    muscleField (secondaryOpt ⟨"Plank", "Hold", "Stay", "Bodyweight", "Core",
      "", "None", "Mat", "Beginner"⟩) = "NULL" ∧
    pyBoolLower (secondaryOpt ⟨"Plank", "Hold", "Stay", "Bodyweight", "Core",
      "", "None", "Mat", "Beginner"⟩).isSome = "true" ∧
    rowInsert ⟨"Plank", "Hold", "Stay", "Bodyweight", "Core", "", "None",
      "Mat", "Beginner"⟩ =
    insertText "Plank" "Hold" "Stay" "Bodyweight" "Core"
      "NULL" "NULL" "Mat" "Beginner" "true" := by
  have h := generator_empty_secondary ⟨"Plank", "Hold", "Stay", "Bodyweight",
    "Core", "", "None", "Mat", "Beginner"⟩ rfl
  exact ⟨h.1, h.2.1, by rw [h.2.2]; rfl⟩

/-- C1 counterexample: a row whose secondary_muscle is the empty string is
not the literal None, yet the generated INSERT does not wrap the secondary
muscle in get_muscle_id: the empty string is falsy, so the statement renders
NULL there while is_compound still reads true. -/
theorem generator_secondary_wrap_cex :
    ExerciseRow.secondary_muscle ⟨"Pushup", "d", "i", "Bodyweight", "Chest",
      "", "None", "e", "Beginner"⟩ ≠ "None" ∧
    containsList ("get_muscle_id(\x27\x27)").data
      (rowInsert ⟨"Pushup", "d", "i", "Bodyweight", "Chest", "", "None", "e",
        "Beginner"⟩).data = false ∧
    rowInsert ⟨"Pushup", "d", "i", "Bodyweight", "Chest", "", "None", "e",
      "Beginner"⟩ =
    insertText "Pushup" "d" "i" "Bodyweight" "Chest" "NULL" "NULL" "e"
      "Beginner" "true" := by
  refine ⟨by decide, by decide, ?_⟩
  decide

/-- C1 amended: for every CSV row whose secondary_muscle is neither the
literal None nor the empty string, the generated INSERT wraps the secondary
muscle in get_muscle_id and renders is_compound as true; and across all rows
is_compound reads true exactly when secondary_muscle differs from the literal
None (the empty string included). -/
theorem generator_secondary_wrapped (r : ExerciseRow)
    (h1 : r.secondary_muscle ≠ "None") (h2 : r.secondary_muscle ≠ "") :
    rowInsert r = insertText (escapeQuotes r.name) (escapeQuotes r.description)
      (escapeQuotes r.instructions) r.category r.primary_muscle
      (gmiWrap r.secondary_muscle) (muscleField (tertiaryOpt r))
      (escapeQuotes r.equipment_needed) r.difficulty_level "true" ∧
    (∀ r2 : ExerciseRow,
      pyBoolLower (secondaryOpt r2).isSome = "true" ↔ r2.secondary_muscle ≠ "None") := by
  have hso : secondaryOpt r = some r.secondary_muscle := by
    unfold secondaryOpt
    rw [if_pos h1]
  constructor
  · unfold rowInsert
    rw [hso, show muscleField (some r.secondary_muscle) = gmiWrap r.secondary_muscle from by
      simp only [muscleField]; rw [if_neg h2]]
    rfl
  · intro r2
    by_cases hn : r2.secondary_muscle = "None"
    · have : secondaryOpt r2 = none := by simp [secondaryOpt, hn]
      rw [this]
      constructor
      · intro hf
        exact absurd hf (by decide)
      · intro hf
        exact absurd hn hf
    · have : secondaryOpt r2 = some r2.secondary_muscle := by
        unfold secondaryOpt
        rw [if_pos hn]
      rw [this]
      exact ⟨fun _ => hn, fun _ => rfl⟩

theorem generator_secondary_wrapped_witness :
    rowInsert ⟨"Bench Press", "Press", "Push", "Free Weight", "Chest",
      "Triceps", "None", "Bench", "Beginner"⟩ =
    insertText "Bench Press" "Press" "Push" "Free Weight" "Chest"
      "get_muscle_id(\x27Triceps\x27)" "NULL" "Bench" "Beginner" "true" := by
  have h := generator_secondary_wrapped ⟨"Bench Press", "Press", "Push",
    "Free Weight", "Chest", "Triceps", "None", "Bench", "Beginner"⟩
    (by decide) (by decide)
  rw [h.1]
  rfl

/-- C3 counterexample: the category field is spliced into the SQL text
verbatim, so a single quote inside it reaches the generated INSERT
unescaped: the text quote O quote Neil quote appears while the doubled form
does not. -/
theorem generator_unescaped_category_cex :
    containsList ("\x27O\x27Neil\x27").data
      (rowInsert ⟨"Curl", "d", "i", "O\x27Neil", "Biceps", "None", "None",
        "Dumbbell", "Beginner"⟩).data = true ∧
    containsList ("O\x27\x27Neil").data
      (rowInsert ⟨"Curl", "d", "i", "O\x27Neil", "Biceps", "None", "None",
        "Dumbbell", "Beginner"⟩).data = false := by
  refine ⟨by decide, by decide⟩

/-- Quote accounting for the INSERT skeleton: sixteen quote characters of its
own plus those of the ten spliced parts. -/
lemma insertText_count (n d i c p sec tert e df comp : String) :
    List.count sqc (insertText n d i c p sec tert e df comp).data =
      16 + (List.count sqc n.data + List.count sqc d.data + List.count sqc i.data +
        List.count sqc c.data + List.count sqc p.data + List.count sqc sec.data +
        List.count sqc tert.data + List.count sqc e.data + List.count sqc df.data +
        List.count sqc comp.data) := by
  have h1 : List.count sqc ("INSERT INTO exercises (name, description, instructions, category, primary_muscle_group_id, secondary_muscle_group_id, tertiary_muscle_group_id, equipment_needed, difficulty_level, is_compound, exercise_type)\nVALUES (\x27").data = 1 := by
    decide
  have h2 : List.count sqc ("\x27, \x27").data = 2 := by decide
  have h3 : List.count sqc ("\x27, \n        get_muscle_id(\x27").data = 2 := by decide
  have h4 : List.count sqc ("\x27), \n        ").data = 1 := by decide
  have h5 : List.count sqc (", \n        ").data = 0 := by decide
  have h6 : List.count sqc (",\n        \x27").data = 1 := by decide
  have h7 : List.count sqc ("\x27, \n        ").data = 1 := by decide
  have h8 : List.count sqc (", \x27strength\x27);").data = 2 := by decide
  simp only [insertText, String.data_append, List.count_append, h1, h2, h3, h4, h5,
    h6, h7, h8]
  omega

/-- C3 amended: the generator escapes single quotes only in the name,
description, instructions and equipment_needed fields; category,
primary_muscle, the muscle names spliced into the lookup wrapper, and
difficulty_level pass into the SQL text verbatim.  The first conjunct names
the exact splice; the second counts the quotes of the produced INSERT: the
four escaped fields contribute their quotes twice each, the verbatim fields
once each, on top of the sixteen fixed delimiter quotes; the third pins the
muscle splice to NULL or the verbatim name between the two wrapper quotes. -/
theorem generator_escape_extent (r : ExerciseRow) :
    rowInsert r = insertText (escapeQuotes r.name) (escapeQuotes r.description)
      (escapeQuotes r.instructions) r.category r.primary_muscle
      (muscleField (secondaryOpt r)) (muscleField (tertiaryOpt r))
      (escapeQuotes r.equipment_needed) r.difficulty_level
      (pyBoolLower (secondaryOpt r).isSome) ∧
    List.count sqc (rowInsert r).data =
      16 + 2 * (List.count sqc r.name.data + List.count sqc r.description.data +
        List.count sqc r.instructions.data + List.count sqc r.equipment_needed.data) +
      (List.count sqc r.category.data + List.count sqc r.primary_muscle.data +
        List.count sqc r.difficulty_level.data) +
      (List.count sqc (muscleField (secondaryOpt r)).data +
        List.count sqc (muscleField (tertiaryOpt r)).data) ∧
    (∀ u : String, List.count sqc (muscleField (some u)).data =
      if u = "" then 0 else 2 + List.count sqc u.data) := by
  refine ⟨rfl, ?_, ?_⟩
  · unfold rowInsert
    rw [insertText_count]
    simp only [escapeQuotes_count]
    have hcomp : List.count sqc (pyBoolLower (secondaryOpt r).isSome).data = 0 := by
      cases hb : (secondaryOpt r).isSome <;> decide
    rw [hcomp]
    omega
  · intro u
    by_cases hu : u = ""
    · rw [if_pos hu, hu]
      decide
    · rw [if_neg hu]
      simp only [muscleField]
      rw [if_neg hu]
      unfold gmiWrap
      simp only [String.data_append, List.count_append]
      have h1 : List.count sqc ("get_muscle_id(\x27").data = 1 := by decide
      have h2 : List.count sqc ("\x27)").data = 1 := by decide
      rw [h1, h2]
      omega

/-- C9: on any failure (a missing CSV file, or a row whose processing fails,
for example from a missing column) the generator changes nothing: the output
file is opened and written only after every row has been transformed, so on
an error the file state is returned untouched. -/
theorem generator_no_partial_output (fs : FileState) (e : String)
    (h : (generate_sql_from_csv fs).2 = Except.error e) :
    (generate_sql_from_csv fs).1 = fs := by
  unfold generate_sql_from_csv at h ⊢
  cases hcsv : fs.csvFile with
  | none => rfl
  | some rows =>
    replace h : (match rows.mapM processRow with
      | Except.error e2 => (fs, Except.error e2)
      | Except.ok inserts =>
        ({ csvFile := some rows,
            outFile := some (sql_header ++ String.intercalate "\n\n" inserts ++ sql_footer) },
          Except.ok ())).2 = Except.error e := by
      rw [hcsv] at h
      exact h
    show (match rows.mapM processRow with
      | Except.error e2 => (fs, Except.error e2)
      | Except.ok inserts =>
        ({ csvFile := some rows,
            outFile := some (sql_header ++ String.intercalate "\n\n" inserts ++ sql_footer) },
          Except.ok ())).1 = fs
    cases hmap : rows.mapM processRow with
    | error e2 => rfl
    | ok inserts =>
      rw [hmap] at h
      simp at h

theorem generator_no_partial_output_witness :
    (generate_sql_from_csv ⟨some [[("name", "Pushup")]], some "old content"⟩).2
      = Except.error "KeyError: description" ∧
    (generate_sql_from_csv ⟨some [[("name", "Pushup")]], some "old content"⟩).1
      = ⟨some [[("name", "Pushup")]], some "old content"⟩ :=
  ⟨rfl, generator_no_partial_output _ "KeyError: description" rfl⟩

end FFA
